import Mathlib

/-!
Shallow embedding of `src/main.rs` of the imageboard service: the post store,
the multipart submission handler `handle_post`, the listing handler `homepage`,
and the HTML escaping helper `encode_html`.  External collaborators (the
`image` crate's decoder, UUID generation, the filesystem) are modelled as
explicit parameters or explicit state, as noted at each definition.
-/

namespace Board

/-- Rust `struct Post` (main.rs lines 18-25).  `id` is the string form of the
UUID. -/
structure Post where
  id : String
  name : String
  subject : String
  body : String
  image_url : Option String
deriving Repr, DecidableEq

/-- Rust `struct PostData` with `#[derive(Default)]` (main.rs lines 27-33). -/
structure PostData where
  name : String := ""
  subject : String := ""
  body : String := ""
  image_path : Option String := none
deriving Repr, DecidableEq

/-- `const IMAGE_UPLOAD_DIR` (main.rs line 35). -/
def IMAGE_UPLOAD_DIR : String := "./uploads/images/"

/-- One multipart part as `handle_post` sees it after draining the chunk
stream: the `Content-Disposition` field name (`disp.get_name().unwrap_or("")`),
the optional client filename, and the accumulated bytes `value`
(main.rs lines 131-144). -/
structure Part where
  field_name : String
  filename : Option String
  value : List Nat
deriving Repr, DecidableEq

/-- HTTP responses produced by the two handlers. -/
inductive Response where
  | ok (html : String)
  | badRequest (msg : String)
  | internalError (msg : String)
  | seeOther (location : String)
deriving Repr, DecidableEq

/-- The final path component of a path: the characters after the last `/`
(Rust `Path::file_name`, as used by `Path::extension`). -/
def lastComponent (p : String) : List Char :=
  (p.data.reverse.takeWhile (fun c => c != '/')).reverse

/-- Rust `Path::extension` on the path string: the portion of the file name
after the final `.`; `none` when there is no `.`, or when the only `.` is the
leading character of the file name (so `".exe"` has no extension). -/
def extension_of (p : String) : Option String :=
  let f := lastComponent p
  let rev := f.reverse
  let pre := rev.takeWhile (fun c => c != '.')
  if pre.length == rev.length then none
  else if f.length - pre.length - 1 == 0 then none
  else some (String.mk pre.reverse)

/-- The `mime_guess` extension database restricted to the extensions this
development mentions (the five allow-listed image extensions, further image
extensions that `mime_guess` maps to `image/*`, and some non-image
extensions).  Keys are lower-case; `mime_guess` looks extensions up
case-insensitively. -/
def mime_db : List (String × String × String) :=
  [ ("jpg", ("image", "jpeg")), ("jpeg", ("image", "jpeg")),
    ("jpe", ("image", "jpeg")), ("png", ("image", "png")),
    ("gif", ("image", "gif")), ("webp", ("image", "webp")),
    ("bmp", ("image", "bmp")), ("tif", ("image", "tiff")),
    ("tiff", ("image", "tiff")), ("svg", ("image", "svg+xml")),
    ("ico", ("image", "x-icon")),
    ("exe", ("application", "x-msdownload")),
    ("txt", ("text", "plain")), ("html", ("text", "html")),
    ("pdf", ("application", "pdf")), ("zip", ("application", "zip")) ]

/-- ASCII-lowercase a string (`mime_guess` matches extensions
case-insensitively). -/
def lowerAscii (s : String) : String :=
  String.mk (s.data.map Char.toLower)

/-- `mime_guess::from_path(p).first_or_octet_stream()` (main.rs line 148):
infer `(top-level type, subtype)` from the path's extension, falling back to
`application/octet-stream`. -/
def mime_from_path (p : String) : String × String :=
  match extension_of p with
  | none => ("application", "octet-stream")
  | some e =>
    match mime_db.lookup (lowerAscii e) with
    | some m => m
    | none => ("application", "octet-stream")

/-- The subtype allow-list of main.rs line 150:
`matches!(mime_type.subtype().as_ref(), "jpeg" | "jpg" | "png" | "gif" | "webp")`. -/
def allowed_subtype (s : String) : Bool :=
  s == "jpeg" || s == "jpg" || s == "png" || s == "gif" || s == "webp"

/-- Filesystem model: the set of paths that currently exist in the upload
directory tree, as a duplicate-free list.  `File::create` makes the path
exist (truncating if present). -/
def fs_create (fs : List String) (p : String) : List String :=
  if p ∈ fs then fs else fs ++ [p]

/-- `std::fs::remove_file` (main.rs line 174): the path no longer exists. -/
def fs_remove (fs : List String) (p : String) : List String :=
  fs.filter (fun q => q != p)

/-- A UTF-8 continuation byte, `0x80 ..= 0xBF`. -/
def isCont (b : Nat) : Bool := 0x80 ≤ b && b ≤ 0xBF

/-- The Unicode replacement character U+FFFD. -/
def replacementChar : Char := Char.ofNat 0xFFFD

/-- Rust `String::from_utf8_lossy` (main.rs line 182) on a byte list: decode
UTF-8, emitting U+FFFD for each maximal invalid subpart; total, never fails.
The branch structure follows the UTF-8 acceptance ranges Rust uses: lead bytes
`C2-DF` take one continuation, `E0/E1-EC,EE,EF/ED` take two (with the narrowed
second-byte ranges that exclude overlongs and surrogates), `F0/F1-F3/F4` take
three (excluding overlongs and code points above U+10FFFF).  The recursion is
made structural on a fuel bound (each step consumes at least one byte, so any
fuel above the byte count is enough); this keeps the function kernel-reducible. -/
def utf8DecodeLossyAux : Nat → List Nat → List Char
  | 0, _ => []
  | _ + 1, [] => []
  | fuel + 1, b :: rest =>
    if b < 0x80 then Char.ofNat b :: utf8DecodeLossyAux fuel rest
    else if 0xC2 ≤ b && b ≤ 0xDF then
      match rest with
      | [] => [replacementChar]
      | c1 :: rest1 =>
        if isCont c1 then
          Char.ofNat ((b - 0xC0) * 0x40 + (c1 - 0x80)) :: utf8DecodeLossyAux fuel rest1
        else replacementChar :: utf8DecodeLossyAux fuel (c1 :: rest1)
    else if 0xE0 ≤ b && b ≤ 0xEF then
      let c1ok : Nat → Bool := fun c1 =>
        if b == 0xE0 then 0xA0 ≤ c1 && c1 ≤ 0xBF
        else if b == 0xED then 0x80 ≤ c1 && c1 ≤ 0x9F
        else isCont c1
      match rest with
      | [] => [replacementChar]
      | c1 :: rest1 =>
        if c1ok c1 then
          match rest1 with
          | [] => [replacementChar]
          | c2 :: rest2 =>
            if isCont c2 then
              Char.ofNat ((b - 0xE0) * 0x1000 + (c1 - 0x80) * 0x40 + (c2 - 0x80)) ::
                utf8DecodeLossyAux fuel rest2
            else replacementChar :: utf8DecodeLossyAux fuel (c2 :: rest2)
        else replacementChar :: utf8DecodeLossyAux fuel (c1 :: rest1)
    else if 0xF0 ≤ b && b ≤ 0xF4 then
      let c1ok : Nat → Bool := fun c1 =>
        if b == 0xF0 then 0x90 ≤ c1 && c1 ≤ 0xBF
        else if b == 0xF4 then 0x80 ≤ c1 && c1 ≤ 0x8F
        else isCont c1
      match rest with
      | [] => [replacementChar]
      | c1 :: rest1 =>
        if c1ok c1 then
          match rest1 with
          | [] => [replacementChar]
          | c2 :: rest2 =>
            if isCont c2 then
              match rest2 with
              | [] => [replacementChar]
              | c3 :: rest3 =>
                if isCont c3 then
                  Char.ofNat ((b - 0xF0) * 0x40000 + (c1 - 0x80) * 0x1000 +
                      (c2 - 0x80) * 0x40 + (c3 - 0x80)) :: utf8DecodeLossyAux fuel rest3
                else replacementChar :: utf8DecodeLossyAux fuel (c3 :: rest3)
            else replacementChar :: utf8DecodeLossyAux fuel (c2 :: rest2)
        else replacementChar :: utf8DecodeLossyAux fuel (c1 :: rest1)
    else replacementChar :: utf8DecodeLossyAux fuel rest

/-- `String::from_utf8_lossy` proper: run the decoder with adequate fuel. -/
def utf8DecodeLossy (l : List Nat) : List Char :=
  utf8DecodeLossyAux (l.length + 1) l

/-- Rust `char::is_whitespace`: the Unicode White_Space property (a fixed set
of 25 code points). -/
def rustIsWhitespace (c : Char) : Bool :=
  (0x9 ≤ c.toNat && c.toNat ≤ 0xD) || c.toNat == 0x20 || c.toNat == 0x85 ||
  c.toNat == 0xA0 || c.toNat == 0x1680 ||
  (0x2000 ≤ c.toNat && c.toNat ≤ 0x200A) || c.toNat == 0x2028 ||
  c.toNat == 0x2029 || c.toNat == 0x202F || c.toNat == 0x205F ||
  c.toNat == 0x3000

/-- Rust `str::trim` (main.rs lines 184-186): strip leading and trailing
Unicode whitespace. -/
def rust_trim (s : String) : String :=
  String.mk (((s.data.dropWhile rustIsWhitespace).reverse.dropWhile
    rustIsWhitespace).reverse)

/-- The byte-to-field text decoding of main.rs lines 182-186:
`String::from_utf8_lossy(&value).to_string()`, then `.trim().to_string()`. -/
def decode_text (value : List Nat) : String :=
  rust_trim (String.mk (utf8DecodeLossy value))

/-- The per-character escaping of `html_escape::encode_safe`: the six
HTML-unsafe characters are replaced by entities, every other character is
kept. -/
def escChar (c : Char) : List Char :=
  if c = '&' then "&amp;".data
  else if c = '<' then "&lt;".data
  else if c = '>' then "&gt;".data
  else if c = '"' then "&quot;".data
  else if c = '\'' then "&#x27;".data
  else if c = '/' then "&#x2F;".data
  else [c]

/-- Rust `fn encode_html` (main.rs lines 212-214): `encode_safe(input)`. -/
def encode_html (input : String) : String :=
  String.mk (input.data.flatMap escChar)

/-- Server state shared across requests: the post store (`Vec<Post>`, in
append order, oldest first) and the modelled upload-directory contents. -/
structure ServerState where
  posts : List Post
  files : List String
deriving Repr, DecidableEq

/-- The body of the `while let Some(item) = payload.next().await` loop of
`handle_post` for one part (main.rs lines 131-189).  `decode` models
`image::open` on the written bytes (the content-level image check);
`uuid` models `Uuid::new_v4().to_string()`, supplied as a stream indexed by
a counter `ctr` that advances at each generation.  Returns either an early
response (`Except.error`) or the updated `PostData`, together with the
filesystem and the uuid counter.

In this model `File::create` and `write_all` succeed; their I/O-failure
branches (main.rs lines 160-171, both 500) are unreachable here. -/
def processPart (decode : List Nat → Bool) (uuid : Nat → String)
    (part : Part) (pd : PostData) (fs : List String) (ctr : Nat) :
    Except Response PostData × List String × Nat :=
  if part.field_name == "file" && !part.value.isEmpty then
    match part.filename with
    | some fname =>
      let m := mime_from_path fname
      if m.1 == "image" then
        if !allowed_subtype m.2 then
          (Except.error (Response.badRequest "Unsupported image format"), fs, ctr)
        else
          let unique_id := uuid ctr
          let sanitized_filename := unique_id ++ "." ++ m.2
          let filepath := IMAGE_UPLOAD_DIR ++ sanitized_filename
          let fs1 := fs_create fs filepath
          if decode part.value then
            (Except.ok { pd with
                image_path := some ("/uploads/images/" ++ sanitized_filename) },
              fs1, ctr + 1)
          else
            (Except.error (Response.badRequest "Invalid image file"),
              fs_remove fs1 filepath, ctr + 1)
      else
        -- non-image MIME type: the `if` of main.rs line 149 is skipped and
        -- the part is silently ignored
        (Except.ok pd, fs, ctr)
    | none => (Except.ok pd, fs, ctr)
  else
    let value_str := String.mk (utf8DecodeLossy part.value)
    if part.field_name == "name" then
      (Except.ok { pd with name := rust_trim value_str }, fs, ctr)
    else if part.field_name == "subject" then
      (Except.ok { pd with subject := rust_trim value_str }, fs, ctr)
    else if part.field_name == "body" then
      (Except.ok { pd with body := rust_trim value_str }, fs, ctr)
    else (Except.ok pd, fs, ctr)

/-- The full multipart loop of `handle_post` (main.rs lines 122-190): parts
are processed in arrival order; any early response aborts the rest of the
stream. -/
def processParts (decode : List Nat → Bool) (uuid : Nat → String) :
    List Part → PostData → List String → Nat →
    Except Response PostData × List String × Nat
  | [], pd, fs, ctr => (Except.ok pd, fs, ctr)
  | part :: rest, pd, fs, ctr =>
    match processPart decode uuid part pd fs ctr with
    | (Except.error r, fs1, ctr1) => (Except.error r, fs1, ctr1)
    | (Except.ok pd1, fs1, ctr1) => processParts decode uuid rest pd1 fs1 ctr1

/-- Rust `async fn handle_post` (main.rs lines 116-210): run the multipart
loop, require the three trimmed text fields non-empty, build the `Post` with
a fresh UUID, push it onto the store, and redirect to `/`. -/
def handle_post (decode : List Nat → Bool) (uuid : Nat → String)
    (parts : List Part) (st : ServerState) (ctr : Nat) :
    Response × ServerState × Nat :=
  match processParts decode uuid parts {} st.files ctr with
  | (Except.error r, fs1, ctr1) => (r, { st with files := fs1 }, ctr1)
  | (Except.ok pd, fs1, ctr1) =>
    if pd.name.isEmpty || pd.subject.isEmpty || pd.body.isEmpty then
      (Response.badRequest "Name, Subject, and Body are required",
        { st with files := fs1 }, ctr1)
    else
      let post : Post :=
        { id := uuid ctr1, name := pd.name, subject := pd.subject,
          body := pd.body, image_url := pd.image_path }
      (Response.seeOther "/",
        { posts := st.posts ++ [post], files := fs1 }, ctr1 + 1)

/-- The order in which `homepage` walks the store: `posts.iter().rev()`
(main.rs line 67), most-recently-appended first. -/
def listing (posts : List Post) : List Post :=
  posts.reverse

/-- The per-post HTML block built inside the loop of `homepage`
(main.rs lines 68-89). -/
def render_post (post : Post) : String :=
  let image_html :=
    match post.image_url with
    | some url =>
      "<div class=\"image\"><img src=\"" ++ encode_html url ++
        "\" alt=\"image\" style=\"max-width:200px;\"></div>"
    | none => ""
  "<div class=\"thread\" id=\"thread_" ++ post.id ++ "\">\n" ++
  "<div class=\"post op\" id=\"op_" ++ post.id ++ "\">\n" ++
  "<p class=\"intro\"><span class=\"subject\">" ++ encode_html post.subject ++
  "</span> <span class=\"name\">" ++ encode_html post.name ++ "</span></p>\n" ++
  "<div class=\"body\">" ++ encode_html post.body ++ "</div>\n" ++
  image_html ++ "\n<hr>\n</div>\n</div>\n"

/-- The `posts_html` accumulator of `homepage` (main.rs lines 66-90). -/
def posts_html (posts : List Post) : String :=
  String.join ((listing posts).map render_post)

/-- Rust `async fn homepage` (main.rs lines 63-114): lock the store, render
all posts newest-first, and answer 200 with the page.  The handler only reads
the store, so the state it leaves behind is the state it was given. -/
def homepage (st : ServerState) : Response × ServerState :=
  (Response.ok (posts_html st.posts), st)

/-- `state.posts.lock().unwrap()`: `unwrap` on the `LockResult` panics when
the mutex is poisoned.  `none` models the panic. -/
def lock_unwrap {α : Type} (poisoned : Bool) (v : α) : Option α :=
  if poisoned then none else some v

/-- `homepage` with the store's poison flag made explicit (main.rs line 64):
the handler `unwrap`s the lock before doing anything else, so a poisoned lock
panics (`none`). -/
def homepage_locked (poisoned : Bool) (st : ServerState) :
    Option (Response × ServerState) :=
  (lock_unwrap poisoned st).map homepage

/-- `handle_post` with the store's poison flag made explicit: the multipart
loop runs without the lock, and `lock().unwrap()` happens only on the success
path right before the push (main.rs line 205); a poisoned lock panics there
(`none`). -/
def handle_post_locked (decode : List Nat → Bool) (uuid : Nat → String)
    (parts : List Part) (poisoned : Bool) (st : ServerState) (ctr : Nat) :
    Option (Response × ServerState × Nat) :=
  match processParts decode uuid parts {} st.files ctr with
  | (Except.error r, fs1, ctr1) => some (r, { st with files := fs1 }, ctr1)
  | (Except.ok pd, fs1, ctr1) =>
    if pd.name.isEmpty || pd.subject.isEmpty || pd.body.isEmpty then
      some (Response.badRequest "Name, Subject, and Body are required",
        { st with files := fs1 }, ctr1)
    else
      let post : Post :=
        { id := uuid ctr1, name := pd.name, subject := pd.subject,
          body := pd.body, image_url := pd.image_path }
      (lock_unwrap poisoned ()).map (fun _ =>
        (Response.seeOther "/",
          { posts := st.posts ++ [post], files := fs1 }, ctr1 + 1))

/-- The bytes of an ASCII string, for building concrete multipart parts. -/
def bytesOf (s : String) : List Nat := s.data.map Char.toNat

/-- An image-decoder oracle that accepts every byte sequence. -/
def decodeAll : List Nat → Bool := fun _ => true

/-- An image-decoder oracle that rejects every byte sequence. -/
def decodeNone : List Nat → Bool := fun _ => false

/-- A concrete UUID supply. -/
def uuidSeq : Nat → String := fun n => "uuid-" ++ toString n

/-- A concrete `name` text part. -/
def namePart (s : String) : Part := ⟨"name", none, bytesOf s⟩

/-- A concrete `subject` text part. -/
def subjectPart (s : String) : Part := ⟨"subject", none, bytesOf s⟩

/-- A concrete `body` text part. -/
def bodyPart (s : String) : Part := ⟨"body", none, bytesOf s⟩

/-- A concrete `file` part with a client-supplied filename. -/
def filePart (fname : String) (v : List Nat) : Part := ⟨"file", some fname, v⟩

/-- A fresh server: no posts, empty upload directory. -/
def emptyState : ServerState := ⟨[], []⟩

/-- The field value stored by the text-field rules: the value bytes of the
last part carrying the given field name, if any (last occurrence wins). -/
def lastField (fld : String) : List Part → Option (List Nat)
  | [] => none
  | p :: rest =>
    match lastField fld rest with
    | some v => some v
    | none => if p.field_name == fld then some p.value else none

/-- The decoded, trimmed value of the last part with the given field name, or
the default when the field never occurs. -/
def lastFieldOr (fld : String) (parts : List Part) (dflt : String) : String :=
  match lastField fld parts with
  | some v => decode_text v
  | none => dflt

/-- The `PostData` produced by a run of the multipart loop over parts none of
which triggers the file branch: each text field holds the decoded, trimmed
value of the last part with that field name, and `image_path` is untouched. -/
def textResult (parts : List Part) (pd : PostData) : PostData :=
  { name := lastFieldOr "name" parts pd.name,
    subject := lastFieldOr "subject" parts pd.subject,
    body := lastFieldOr "body" parts pd.body,
    image_path := pd.image_path }

/-- Two concrete posts for witnesses. -/
def postA : Post := ⟨"uuid-a", "alice", "s1", "b1", none⟩

/-- A second concrete post for witnesses. -/
def postB : Post := ⟨"uuid-b", "bob", "s2", "b2", none⟩

/-- A post whose name carries a script-injection attempt. -/
def scriptPost : Post := ⟨"id0", "<script>alert(1)</script>", "subj", "bod", none⟩

/-! ## Claims -/

/-- C1 counterexample: a submission with valid text fields and a `.exe` file
part (non-empty bytes, filename present) is NOT rejected with 400: the
inferred type `application/x-msdownload` is not `image`, so the file branch is
skipped entirely and the request succeeds with 303, contradicting the claim
that every non-image extension yields 400. -/
theorem C1_counterexample :
    (handle_post decodeNone uuidSeq
      [namePart "a", subjectPart "b", bodyPart "c", filePart "virus.exe" [77, 90, 0]]
      emptyState 0).1 = Response.seeOther "/" ∧
    (handle_post decodeNone uuidSeq
      [namePart "a", subjectPart "b", bodyPart "c", filePart "virus.exe" [77, 90, 0]]
      emptyState 0).1 ≠ Response.badRequest "Unsupported image format" := by
  constructor <;> decide

/-- C1 (amended): a file part with a filename and non-empty bytes is rejected
with 400 `Unsupported image format` exactly when its inferred MIME type has
top-level type `image` with a subtype outside the allow-list; when the
inferred top-level type is not `image` (e.g. `.exe`), the part is silently
ignored — no file is written, no field changes — and the request's outcome is
decided by the remaining parts. -/
theorem C1_amended (decode : List Nat → Bool) (uuid : Nat → String)
    (part : Part) (pd : PostData) (fs : List String) (ctr : Nat) (fname : String)
    (hf : part.field_name = "file") (hfn : part.filename = some fname)
    (hv : part.value ≠ []) :
    ((mime_from_path fname).1 = "image" →
      allowed_subtype (mime_from_path fname).2 = false →
      processPart decode uuid part pd fs ctr =
        (Except.error (Response.badRequest "Unsupported image format"), fs, ctr)) ∧
    ((mime_from_path fname).1 ≠ "image" →
      processPart decode uuid part pd fs ctr = (Except.ok pd, fs, ctr)) := by
  obtain ⟨fn, fl, v⟩ := part
  simp only at hf hfn
  subst hf; subst hfn
  obtain - | ⟨a, t⟩ := v
  · exact absurd rfl hv
  constructor
  · intro h1 h2
    simp [processPart, h1, h2]
  · intro h1
    simp [processPart, h1]

/-- C1 witness: a `.exe` upload part is silently ignored, while an
`image/bmp` upload part (image type, subtype outside the allow-list) is
rejected with 400. -/
theorem C1_amended_witness :
    processPart decodeAll uuidSeq (filePart "virus.exe" [77]) {} [] 0 =
      (Except.ok {}, [], 0) ∧
    processPart decodeAll uuidSeq (filePart "x.bmp" [77]) {} [] 0 =
      (Except.error (Response.badRequest "Unsupported image format"), [], 0) :=
  ⟨(C1_amended decodeAll uuidSeq (filePart "virus.exe" [77]) {} [] 0 "virus.exe"
      rfl rfl (by decide)).2 (by decide),
   (C1_amended decodeAll uuidSeq (filePart "x.bmp" [77]) {} [] 0 "x.bmp"
      rfl rfl (by decide)).1 (by decide) (by decide)⟩

/-- C2 counterexample: a submission carrying a valid `pic.png` upload together
with an empty `name` field answers 400 and appends no post, but the uploaded
file has been written and remains in the upload directory, contradicting the
claim that no file is written. -/
theorem C2_counterexample :
    handle_post decodeAll uuidSeq
      [filePart "pic.png" [1, 2, 3], namePart "", subjectPart "b", bodyPart "c"]
      emptyState 0 =
      (Response.badRequest "Name, Subject, and Body are required",
        ⟨[], ["./uploads/images/uuid-0.png"]⟩, 1) ∧
    (handle_post decodeAll uuidSeq
      [filePart "pic.png" [1, 2, 3], namePart "", subjectPart "b", bodyPart "c"]
      emptyState 0).2.1.files ≠ [] := by
  constructor <;> decide

/-- C2 (amended): when any of the three trimmed text fields ends up empty,
the response is 400 and no post is appended — and in general every post a
submission ever appends has all three text fields non-empty (a post is fully
valid or never created) — but a file accepted earlier in the same request may
already have been written and is not removed. -/
theorem C2_amended (decode : List Nat → Bool) (uuid : Nat → String)
    (parts : List Part) (st : ServerState) (ctr : Nat)
    (pd : PostData) (fs1 : List String) (ctr1 : Nat)
    (hrun : processParts decode uuid parts {} st.files ctr = (Except.ok pd, fs1, ctr1))
    (hempty : pd.name = "" ∨ pd.subject = "" ∨ pd.body = "") :
    (handle_post decode uuid parts st ctr).1 =
      Response.badRequest "Name, Subject, and Body are required" ∧
    (handle_post decode uuid parts st ctr).2.1.posts = st.posts ∧
    (∀ (parts2 : List Part) (st2 : ServerState) (ctr2 : Nat) (q : Post),
      q ∈ (handle_post decode uuid parts2 st2 ctr2).2.1.posts →
      q ∈ st2.posts ∨ (q.name ≠ "" ∧ q.subject ≠ "" ∧ q.body ≠ "")) := by
  have hcond : (pd.name.isEmpty || pd.subject.isEmpty || pd.body.isEmpty) = true := by
    rcases hempty with h | h | h <;> simp [h, String.isEmpty_iff]
  refine ⟨?_, ?_, ?_⟩
  · unfold handle_post
    rw [hrun]
    simp [hcond]
  · unfold handle_post
    rw [hrun]
    simp [hcond]
  · intro parts2 st2 ctr2 q hq
    unfold handle_post at hq
    rcases hpp : processParts decode uuid parts2 {} st2.files ctr2 with ⟨r | pd2, fs2, c2⟩
    · rw [hpp] at hq
      exact Or.inl hq
    · rw [hpp] at hq
      simp only at hq
      split at hq
      · exact Or.inl hq
      · rename_i hc
        simp only [Bool.or_eq_true, not_or, Bool.not_eq_true,
          String.isEmpty_iff] at hc
        rcases List.mem_append.mp hq with hmem | hmem
        · exact Or.inl hmem
        · right
          rcases List.mem_singleton.mp hmem with rfl
          exact ⟨hc.1.1, hc.1.2, hc.2⟩

/-- C2 witness: a submission with no `name` part (so the trimmed name is
empty) answers 400 and leaves the store unchanged. -/
theorem C2_amended_witness :
    (handle_post decodeAll uuidSeq [subjectPart "b", bodyPart "c"] emptyState 0).1 =
      Response.badRequest "Name, Subject, and Body are required" ∧
    (handle_post decodeAll uuidSeq [subjectPart "b", bodyPart "c"] emptyState 0).2.1.posts = [] :=
  ⟨(C2_amended decodeAll uuidSeq [subjectPart "b", bodyPart "c"] emptyState 0
      ⟨"", "b", "c", none⟩ [] 0 rfl (Or.inl rfl)).1,
   (C2_amended decodeAll uuidSeq [subjectPart "b", bodyPart "c"] emptyState 0
      ⟨"", "b", "c", none⟩ [] 0 rfl (Or.inl rfl)).2.1⟩

/-- C3 counterexample: with the store's lock poisoned, the listing handler
panics (`none`, from `lock().unwrap()`), and so does a valid submission when
it reaches the append — contradicting the claim that neither handler panics
and that poisoning is surfaced as a recoverable error. -/
theorem C3_counterexample :
    homepage_locked true emptyState = none ∧
    handle_post_locked decodeAll uuidSeq
      [namePart "x", subjectPart "y", bodyPart "z"] true emptyState 0 = none := by
  constructor <;> decide

/-- C3 (amended): both handlers `unwrap` the store's lock, so a poisoned lock
is a panic, not a recoverable error: `homepage` panics unconditionally, and
`handle_post` panics whenever it reaches the append (a submission whose three
trimmed text fields are non-empty); with an unpoisoned lock both handlers
behave as the plain model. -/
theorem C3_amended (decode : List Nat → Bool) (uuid : Nat → String)
    (parts : List Part) (st : ServerState) (ctr : Nat)
    (pd : PostData) (fs1 : List String) (ctr1 : Nat)
    (hrun : processParts decode uuid parts {} st.files ctr = (Except.ok pd, fs1, ctr1))
    (hvalid : pd.name ≠ "" ∧ pd.subject ≠ "" ∧ pd.body ≠ "") :
    homepage_locked true st = none ∧
    handle_post_locked decode uuid parts true st ctr = none ∧
    homepage_locked false st = some (homepage st) ∧
    handle_post_locked decode uuid parts false st ctr =
      some (handle_post decode uuid parts st ctr) := by
  have e : ∀ s : String, s ≠ "" → s.isEmpty = false := by
    intro s hs
    cases h : s.isEmpty
    · rfl
    · exact absurd ((String.isEmpty_iff s).mp h) hs
  have hcond : (pd.name.isEmpty || pd.subject.isEmpty || pd.body.isEmpty) = false := by
    simp [e _ hvalid.1, e _ hvalid.2.1, e _ hvalid.2.2]
  refine ⟨rfl, ?_, rfl, ?_⟩
  · unfold handle_post_locked
    rw [hrun]
    simp [hcond, lock_unwrap]
  · unfold handle_post_locked handle_post
    rw [hrun]
    simp [hcond, lock_unwrap]

/-- C3 witness: at a concrete valid submission, poisoning panics both
handlers and an unpoisoned lock behaves as the plain model. -/
theorem C3_amended_witness :
    homepage_locked true emptyState = none ∧
    handle_post_locked decodeAll uuidSeq
      [namePart "a", subjectPart "b", bodyPart "c"] true emptyState 0 = none ∧
    homepage_locked false emptyState = some (homepage emptyState) ∧
    handle_post_locked decodeAll uuidSeq
      [namePart "a", subjectPart "b", bodyPart "c"] false emptyState 0 =
      some (handle_post decodeAll uuidSeq
        [namePart "a", subjectPart "b", bodyPart "c"] emptyState 0) :=
  C3_amended decodeAll uuidSeq [namePart "a", subjectPart "b", bodyPart "c"]
    emptyState 0 ⟨"a", "b", "c", none⟩ [] 0 rfl (by decide)

/-- C4: the homepage renders exactly the store's snapshot in `listing` order,
and `listing` is precisely reverse append order: it has the same length as
the store, its `i`-th entry is the store's `(length - 1 - i)`-th entry, it is
a permutation of the store (no post missing or duplicated), and appending a
post puts it at the head of the next listing. -/
theorem C4_listing_order (st : ServerState) :
    (homepage st).1 = Response.ok (String.join ((listing st.posts).map render_post)) ∧
    (listing st.posts).length = st.posts.length ∧
    (∀ (i : Nat) (h : i < (listing st.posts).length)
      (h2 : st.posts.length - 1 - i < st.posts.length),
      (listing st.posts)[i] = st.posts[st.posts.length - 1 - i]) ∧
    (listing st.posts).Perm st.posts ∧
    (∀ p : Post, listing (st.posts ++ [p]) = p :: listing st.posts) := by
  refine ⟨rfl, by simp [listing], ?_, by simp [listing], ?_⟩
  · intro i h h2
    simp only [listing] at h ⊢
    rw [List.getElem_reverse]
  · intro p
    simp [listing]

/-- C4 witness: on a two-post store, the listing has length two, puts the
most recent post first, and appending to a one-post store puts the new post
at the head. -/
theorem C4_listing_order_witness :
    (listing (ServerState.posts ⟨[postA, postB], []⟩)).length = 2 ∧
    (listing (ServerState.posts ⟨[postA, postB], []⟩)).get ⟨0, by decide⟩ = postB ∧
    listing ([postA] ++ [postB]) = postB :: listing [postA] := by
  have h := C4_listing_order ⟨[postA, postB], []⟩
  refine ⟨h.2.1, ?_, (C4_listing_order ⟨[postA], []⟩).2.2.2.2 postB⟩
  have h0 := h.2.2.1 0 (by decide) (by decide)
  simpa [List.get_eq_getElem] using h0

/-- C5: an upload that passes the extension allow-list is written and then
content-decoded; when decoding fails the written file is removed and the
request is rejected with 400 `Invalid image file`: the storage path is absent
from the filesystem in the result, and the whole multipart run aborts with
that same response. -/
theorem C5_decode_failure_cleanup (decode : List Nat → Bool) (uuid : Nat → String)
    (part : Part) (pd : PostData) (fs : List String) (ctr : Nat) (fname : String)
    (hf : part.field_name = "file") (hfn : part.filename = some fname)
    (hv : part.value ≠ [])
    (himg : (mime_from_path fname).1 = "image")
    (hsub : allowed_subtype (mime_from_path fname).2 = true)
    (hdec : decode part.value = false) :
    processPart decode uuid part pd fs ctr =
      (Except.error (Response.badRequest "Invalid image file"),
        fs_remove (fs_create fs (IMAGE_UPLOAD_DIR ++ (uuid ctr ++ "." ++ (mime_from_path fname).2)))
          (IMAGE_UPLOAD_DIR ++ (uuid ctr ++ "." ++ (mime_from_path fname).2)), ctr + 1) ∧
    (IMAGE_UPLOAD_DIR ++ (uuid ctr ++ "." ++ (mime_from_path fname).2)) ∉
      (processPart decode uuid part pd fs ctr).2.1 ∧
    (∀ (rest : List Part) (pd2 : PostData),
      (processParts decode uuid (part :: rest) pd2 fs ctr).1 =
        Except.error (Response.badRequest "Invalid image file")) := by
  obtain ⟨fn, fl, v⟩ := part
  simp only at hf hfn hv hdec
  subst hf; subst hfn
  obtain - | ⟨a, t⟩ := v
  · exact absurd rfl hv
  have hstep : processPart decode uuid ⟨"file", some fname, a :: t⟩ pd fs ctr =
      (Except.error (Response.badRequest "Invalid image file"),
        fs_remove (fs_create fs (IMAGE_UPLOAD_DIR ++ (uuid ctr ++ "." ++ (mime_from_path fname).2)))
          (IMAGE_UPLOAD_DIR ++ (uuid ctr ++ "." ++ (mime_from_path fname).2)), ctr + 1) := by
    simp [processPart, himg, hsub, hdec]
  refine ⟨hstep, ?_, ?_⟩
  · rw [hstep]
    simp [fs_remove, List.mem_filter]
  · intro rest pd2
    have hstep2 : processPart decode uuid ⟨"file", some fname, a :: t⟩ pd2 fs ctr =
        (Except.error (Response.badRequest "Invalid image file"),
          fs_remove (fs_create fs (IMAGE_UPLOAD_DIR ++ (uuid ctr ++ "." ++ (mime_from_path fname).2)))
            (IMAGE_UPLOAD_DIR ++ (uuid ctr ++ "." ++ (mime_from_path fname).2)), ctr + 1) := by
      simp [processPart, himg, hsub, hdec]
    simp [processParts, hstep2]

/-- C5 witness: a `pic.png` upload whose bytes fail image decoding is
rejected with 400 and its storage path is not on disk afterwards. -/
theorem C5_decode_failure_cleanup_witness :
    processPart decodeNone uuidSeq (filePart "pic.png" [9]) {} [] 0 =
      (Except.error (Response.badRequest "Invalid image file"),
        fs_remove (fs_create [] (IMAGE_UPLOAD_DIR ++ (uuidSeq 0 ++ "." ++ (mime_from_path "pic.png").2)))
          (IMAGE_UPLOAD_DIR ++ (uuidSeq 0 ++ "." ++ (mime_from_path "pic.png").2)), 1) ∧
    (IMAGE_UPLOAD_DIR ++ (uuidSeq 0 ++ "." ++ (mime_from_path "pic.png").2)) ∉
      (processPart decodeNone uuidSeq (filePart "pic.png" [9]) {} [] 0).2.1 :=
  ⟨(C5_decode_failure_cleanup decodeNone uuidSeq (filePart "pic.png" [9]) {} [] 0 "pic.png"
      rfl rfl (by decide) (by decide) (by decide) rfl).1,
   (C5_decode_failure_cleanup decodeNone uuidSeq (filePart "pic.png" [9]) {} [] 0 "pic.png"
      rfl rfl (by decide) (by decide) (by decide) rfl).2.1⟩

/-- A part that does not trigger the file branch updates at most one text
field of the pending submission and touches neither the filesystem nor the
uuid counter. -/
theorem processPart_text (decode : List Nat → Bool) (uuid : Nat → String)
    (part : Part) (pd : PostData) (fs : List String) (ctr : Nat)
    (hcond : (part.field_name == "file" && !part.value.isEmpty) = false) :
    processPart decode uuid part pd fs ctr =
      (Except.ok (
        if part.field_name == "name" then
          { pd with name := decode_text part.value }
        else if part.field_name == "subject" then
          { pd with subject := decode_text part.value }
        else if part.field_name == "body" then
          { pd with body := decode_text part.value }
        else pd), fs, ctr) := by
  unfold processPart
  rw [hcond]
  simp only [decode_text, Bool.false_eq_true, if_false]
  split <;> try rfl
  split <;> try rfl
  split <;> rfl

/-- Last-occurrence lookup defers to the tail of the list and falls back to
the head part only when the field does not occur later. -/
theorem lastFieldOr_cons (fld : String) (part : Part) (rest : List Part) (d : String) :
    lastFieldOr fld (part :: rest) d =
      lastFieldOr fld rest
        (if part.field_name == fld then decode_text part.value else d) := by
  cases h : lastField fld rest with
  | none =>
    cases hh : part.field_name == fld <;>
      simp [lastFieldOr, lastField, h, hh]
  | some v =>
    simp [lastFieldOr, lastField, h]

/-- The multipart loop over parts none of which triggers the file branch:
no early response, the filesystem and counter untouched, and the text fields
collect last-occurrence-wins decoded values. -/
theorem processParts_text_only (decode : List Nat → Bool) (uuid : Nat → String) :
    ∀ (parts : List Part) (pd : PostData) (fs : List String) (ctr : Nat),
      (∀ p ∈ parts, ¬(p.field_name = "file" ∧ p.value ≠ [])) →
      processParts decode uuid parts pd fs ctr =
        (Except.ok (textResult parts pd), fs, ctr) := by
  intro parts
  induction parts with
  | nil =>
    intro pd fs ctr _
    simp [processParts, textResult, lastFieldOr, lastField]
  | cons part rest ih =>
    intro pd fs ctr hno
    have hpart := hno part (List.mem_cons_self _ _)
    have hrest : ∀ p ∈ rest, ¬(p.field_name = "file" ∧ p.value ≠ []) :=
      fun p hp => hno p (List.mem_cons_of_mem _ hp)
    have hcond : (part.field_name == "file" && !part.value.isEmpty) = false := by
      by_cases hf : part.field_name = "file"
      · have hval : part.value = [] := by
          by_contra hv
          exact hpart ⟨hf, hv⟩
        simp [hval]
      · simp [hf]
    have hstep := processPart_text decode uuid part pd fs ctr hcond
    simp only [processParts, hstep]
    rw [ih _ fs ctr hrest]
    have hx : textResult (part :: rest) pd =
        textResult rest
          (if part.field_name == "name" then { pd with name := decode_text part.value }
           else if part.field_name == "subject" then { pd with subject := decode_text part.value }
           else if part.field_name == "body" then { pd with body := decode_text part.value }
           else pd) := by
      by_cases h1 : part.field_name = "name" <;>
        by_cases h2 : part.field_name = "subject" <;>
          by_cases h3 : part.field_name = "body" <;>
            simp_all [textResult, lastFieldOr_cons]
    rw [hx]

/-- C6: a submission whose parts never trigger the file branch and whose
resulting three trimmed text fields are non-empty answers a 303 redirect to
`/`, appends exactly one post carrying those fields and no image reference,
writes no file, and that post is the head of the next listing. -/
theorem C6_no_file_valid_submission (decode : List Nat → Bool) (uuid : Nat → String)
    (parts : List Part) (st : ServerState) (ctr : Nat)
    (hnofile : ∀ p ∈ parts, ¬(p.field_name = "file" ∧ p.value ≠ []))
    (hn : (textResult parts {}).name ≠ "")
    (hs : (textResult parts {}).subject ≠ "")
    (hb : (textResult parts {}).body ≠ "") :
    handle_post decode uuid parts st ctr =
      (Response.seeOther "/",
        { posts := st.posts ++
            [{ id := uuid ctr, name := (textResult parts {}).name,
               subject := (textResult parts {}).subject,
               body := (textResult parts {}).body, image_url := none }],
          files := st.files }, ctr + 1) ∧
    (listing (handle_post decode uuid parts st ctr).2.1.posts).head? =
      some { id := uuid ctr, name := (textResult parts {}).name,
             subject := (textResult parts {}).subject,
             body := (textResult parts {}).body, image_url := none } := by
  have hrun := processParts_text_only decode uuid parts {} st.files ctr hnofile
  have e : ∀ s : String, s ≠ "" → s.isEmpty = false := by
    intro s hs2
    cases h : s.isEmpty
    · rfl
    · exact absurd ((String.isEmpty_iff s).mp h) hs2
  have hmain : handle_post decode uuid parts st ctr =
      (Response.seeOther "/",
        { posts := st.posts ++
            [{ id := uuid ctr, name := (textResult parts {}).name,
               subject := (textResult parts {}).subject,
               body := (textResult parts {}).body, image_url := none }],
          files := st.files }, ctr + 1) := by
    unfold handle_post
    rw [hrun]
    have h1 := e _ hn
    have h2 := e _ hs
    have h3 := e _ hb
    simp only [textResult] at h1 h2 h3
    simp [h1, h2, h3, textResult]
  refine ⟨hmain, ?_⟩
  rw [hmain]
  simp [listing]

/-- C6 witness: submitting name `a`, subject `b`, body `c` with no file
yields 303 and the new post heads the next listing with no image. -/
theorem C6_no_file_valid_submission_witness :
    handle_post decodeAll uuidSeq [namePart "a", subjectPart "b", bodyPart "c"]
      emptyState 0 =
      (Response.seeOther "/",
        { posts := [{ id := uuidSeq 0,
                      name := (textResult [namePart "a", subjectPart "b", bodyPart "c"] {}).name,
                      subject := (textResult [namePart "a", subjectPart "b", bodyPart "c"] {}).subject,
                      body := (textResult [namePart "a", subjectPart "b", bodyPart "c"] {}).body,
                      image_url := none }],
          files := [] }, 1) :=
  (C6_no_file_valid_submission decodeAll uuidSeq
    [namePart "a", subjectPart "b", bodyPart "c"] emptyState 0
    (by decide) (by decide) (by decide) (by decide)).1

/-- C7: an accepted upload is stored at
`IMAGE_UPLOAD_DIR ++ <fresh id>.<subtype>`, its public path recorded as
`/uploads/images/<fresh id>.<subtype>`, and the client filename influences
the outcome only through the inferred MIME type: any filename with the same
inferred type produces the identical result. -/
theorem C7_storage_filename (decode : List Nat → Bool) (uuid : Nat → String)
    (part : Part) (pd : PostData) (fs : List String) (ctr : Nat) (fname : String)
    (hf : part.field_name = "file") (hfn : part.filename = some fname)
    (hv : part.value ≠ [])
    (himg : (mime_from_path fname).1 = "image")
    (hsub : allowed_subtype (mime_from_path fname).2 = true)
    (hdec : decode part.value = true) :
    processPart decode uuid part pd fs ctr =
      (Except.ok { pd with image_path := some ("/uploads/images/" ++ (uuid ctr ++ "." ++ (mime_from_path fname).2)) },
        fs_create fs (IMAGE_UPLOAD_DIR ++ (uuid ctr ++ "." ++ (mime_from_path fname).2)),
        ctr + 1) ∧
    (∀ fname2 : String, mime_from_path fname2 = mime_from_path fname →
      processPart decode uuid { part with filename := some fname2 } pd fs ctr =
        processPart decode uuid part pd fs ctr) := by
  obtain ⟨fn, fl, v⟩ := part
  simp only at hf hfn hv hdec
  subst hf; subst hfn
  obtain - | ⟨a, t⟩ := v
  · exact absurd rfl hv
  constructor
  · simp [processPart, himg, hsub, hdec]
  · intro fname2 h2
    simp [processPart, h2]

/-- C7 witness: an accepted `pic.png` upload is stored at the fresh-id path,
and a differently named file with the same inferred type gives the identical
result. -/
theorem C7_storage_filename_witness :
    processPart decodeAll uuidSeq (filePart "pic.png" [7]) {} [] 0 =
      (Except.ok { image_path := some ("/uploads/images/" ++ (uuidSeq 0 ++ "." ++ (mime_from_path "pic.png").2)) },
        fs_create [] (IMAGE_UPLOAD_DIR ++ (uuidSeq 0 ++ "." ++ (mime_from_path "pic.png").2)),
        1) ∧
    processPart decodeAll uuidSeq (filePart "../../../evil.PNG" [7]) {} [] 0 =
      processPart decodeAll uuidSeq (filePart "pic.png" [7]) {} [] 0 :=
  ⟨(C7_storage_filename decodeAll uuidSeq (filePart "pic.png" [7]) {} [] 0 "pic.png"
      rfl rfl (by decide) (by decide) (by decide) rfl).1,
   (C7_storage_filename decodeAll uuidSeq (filePart "pic.png" [7]) {} [] 0 "pic.png"
      rfl rfl (by decide) (by decide) (by decide) rfl).2 "../../../evil.PNG" (by decide)⟩

/-- C8: a part named `name`, `subject` or `body` is decoded with replacement
(the decoder is total), trimmed, and stored into the matching pending field,
leaving everything else unchanged; over a whole file-free multipart run the
stored value of each field is the decoded trim of its last occurrence. -/
theorem C8_text_fields (decode : List Nat → Bool) (uuid : Nat → String)
    (parts : List Part) (pd : PostData) (fs : List String) (ctr : Nat)
    (hnofile : ∀ p ∈ parts, ¬(p.field_name = "file" ∧ p.value ≠ [])) :
    processParts decode uuid parts pd fs ctr =
      (Except.ok (textResult parts pd), fs, ctr) ∧
    (∀ part : Part, part.field_name = "name" →
      processPart decode uuid part pd fs ctr =
        (Except.ok { pd with name := decode_text part.value }, fs, ctr)) ∧
    (∀ part : Part, part.field_name = "subject" →
      processPart decode uuid part pd fs ctr =
        (Except.ok { pd with subject := decode_text part.value }, fs, ctr)) ∧
    (∀ part : Part, part.field_name = "body" →
      processPart decode uuid part pd fs ctr =
        (Except.ok { pd with body := decode_text part.value }, fs, ctr)) := by
  refine ⟨processParts_text_only decode uuid parts pd fs ctr hnofile, ?_, ?_, ?_⟩ <;>
    · intro part hname
      rw [processPart_text decode uuid part pd fs ctr (by simp [hname])]
      simp [hname]

/-- C8 witness: with two `name` parts the second one wins, and a single
`subject` part stores its trimmed decoded value. -/
theorem C8_text_fields_witness :
    processParts decodeAll uuidSeq [namePart " first ", namePart " second "] {} [] 0 =
      (Except.ok (textResult [namePart " first ", namePart " second "] {}), [], 0) ∧
    processPart decodeAll uuidSeq (subjectPart " s ") {} [] 0 =
      (Except.ok { subject := decode_text (bytesOf " s ") }, [], 0) :=
  ⟨(C8_text_fields decodeAll uuidSeq [namePart " first ", namePart " second "] {} [] 0
      (by decide)).1,
   (C8_text_fields decodeAll uuidSeq [] {} [] 0 (by decide)).2.2.1 (subjectPart " s ") rfl⟩

/-- No escaped character expansion contains a raw angle bracket. -/
theorem escChar_no_angle (c : Char) : '<' ∉ escChar c ∧ '>' ∉ escChar c := by
  constructor <;>
  · intro hmem
    unfold escChar at hmem
    repeat' split at hmem
    all_goals first
      | exact absurd hmem (by decide)
      | (simp only [List.mem_singleton] at hmem
         subst hmem
         simp_all)

set_option maxRecDepth 10000 in
/-- C9: HTML escaping removes every raw `<` and `>` from any input, the
script-injection name is rendered as its escaped entity form, and the block
`render_post` emits for a post with that name never contains the raw
substring `<script`. -/
theorem C9_escaping (s : String) :
    '<' ∉ (encode_html s).data ∧ '>' ∉ (encode_html s).data ∧
    encode_html "<script>alert(1)</script>" = "&lt;script&gt;alert(1)&lt;&#x2F;script&gt;" ∧
    ¬ List.IsInfix "<script".data (render_post scriptPost).data := by
  refine ⟨?_, ?_, by decide, by decide⟩
  · intro hmem
    have hmem2 : '<' ∈ s.data.flatMap escChar := hmem
    rcases List.mem_flatMap.mp hmem2 with ⟨c, _, hc⟩
    exact (escChar_no_angle c).1 hc
  · intro hmem
    have hmem2 : '>' ∈ s.data.flatMap escChar := hmem
    rcases List.mem_flatMap.mp hmem2 with ⟨c, _, hc⟩
    exact (escChar_no_angle c).2 hc

/-- C10: the post store is append-only.  The listing handler returns the
state it was given, and a submission either leaves the stored posts
unchanged (any rejection) or extends them with exactly one post at the end,
so every previously stored post keeps its position and fields. -/
theorem C10_append_only (decode : List Nat → Bool) (uuid : Nat → String)
    (parts : List Part) (st : ServerState) (ctr : Nat) :
    (homepage st).2 = st ∧
    ((handle_post decode uuid parts st ctr).2.1.posts = st.posts ∨
      ∃ p : Post, (handle_post decode uuid parts st ctr).2.1.posts = st.posts ++ [p]) := by
  refine ⟨rfl, ?_⟩
  unfold handle_post
  rcases hpp : processParts decode uuid parts {} st.files ctr with ⟨r | pd, fs1, c1⟩
  · left
    rfl
  · simp only
    split
    · left
      rfl
    · right
      exact ⟨_, rfl⟩

end Board
